import Mathlib

/-!
# Verification of the routine-dashboard state logic

Shallow embedding of the state-persistence and view-derivation logic of
`src/dashboard/src/app/page.tsx`:

* the task data model (`RoutineTask`, the compiled-in catalog `defaultTasks`);
* JSON values produced by `JSON.parse` are embedded as the inductive `JValue`
  (numbers are restricted to integers; no claim involves fractional numbers);
* `mergeTaskState`, `loadRoutineState`, `toggleTask`, `parseMinutes`,
  `upcoming`, `completionRate` and `trend` are translated from the source;
* the browser environment is made explicit: `loadRoutineState` takes a flag
  standing for `typeof window !== "undefined"` and an
  `Option (Except Unit JValue)` standing for the result of
  `window.localStorage.getItem` followed by `JSON.parse`
  (`none` = no stored string / empty string, `Except.error` = parse threw,
  `Except.ok v` = parsed value `v`);
* JavaScript numbers are IEEE-754 binary64; the completion-rate computation
  `Math.round((totalCompleted / totalTasks) * 100)` is modelled exactly by
  `jsPct`, which computes the binary64 result with integer arithmetic
  (round-to-nearest, ties-to-even for `/` and `*`, and `Math.round`'s
  nearest-integer-ties-up applied to the exact value of the double).
-/

/-- The `block` union type of the source:
`"Morning" | "Midday" | "Afternoon" | "Evening"`. -/
inductive Block where
  | Morning : Block
  | Midday : Block
  | Afternoon : Block
  | Evening : Block
deriving DecidableEq, Repr

/-- The `RoutineTask` record type of the source. -/
structure RoutineTask where
  id : String
  title : String
  time : String
  block : Block
  details : String
  completed : Bool
deriving DecidableEq, Repr

/-- The `RoutineState` record type of the source. -/
structure RoutineState where
  tasks : List RoutineTask
  hydrated : Bool
deriving DecidableEq, Repr

/-- JSON values as produced by `JSON.parse`.  Numbers are restricted to
integers (every number appearing in the claims is an integer). -/
inductive JValue where
  | null : JValue
  | bool (b : Bool) : JValue
  | num (n : Int) : JValue
  | str (s : String) : JValue
  | arr (items : List JValue) : JValue
  | obj (fields : List (String × JValue)) : JValue

/-- JavaScript truthiness, `Boolean(v)`: `null`, `false`, `0` and `""` are
falsy; every other JSON value (including arrays and objects) is truthy.
(`NaN`, the remaining falsy value, is not representable here.) -/
def truthy : JValue → Bool
  | .null => false
  | .bool b => b
  | .num n => n != 0
  | .str s => s != ""
  | .arr _ => true
  | .obj _ => true

/-- `Boolean(x)` where `x` is a property access that may be `undefined`. -/
def truthyOpt : Option JValue → Bool
  | none => false
  | some v => truthy v

/-- Key lookup where the *last* binding wins.  This is the behaviour both of
`JSON.parse` for duplicate object keys and of `new Map(entries)` for
duplicate map keys (later entries overwrite earlier ones). -/
def lookupLast (fields : List (String × JValue)) (key : String) : Option JValue :=
  match fields with
  | [] => none
  | (k, v) :: rest =>
    match lookupLast rest key with
    | some r => some r
    | none => if k = key then some v else none

/-- Property access `v[key]` on a parsed JSON value: `undefined` (`none`)
unless `v` is an object with the key. -/
def getFieldOf : JValue → String → Option JValue
  | .obj fields, key => lookupLast fields key
  | _, _ => none

mutual

/-- The JavaScript `String(v)` coercion, restricted to parsed JSON values:
strings are returned as-is, numbers and booleans and `null` print their
literal form, arrays join their elements with `","` (with `null` printing as
the empty string inside an array), objects print `"[object Object]"`. -/
def jsToString : JValue → String
  | .null => "null"
  | .bool b => if b then "true" else "false"
  | .num n => toString n
  | .str s => s
  | .arr items => String.intercalate "," (jsToStringList items)
  | .obj _ => "[object Object]"

/-- Elementwise `String` coercion used by array joining (`null` prints as
the empty string inside `Array.prototype.toString`). -/
def jsToStringList : List JValue → List String
  | [] => []
  | .null :: rest => "" :: jsToStringList rest
  | v :: rest => jsToString v :: jsToStringList rest

end

/-- The compiled-in catalog `defaultTasks` of the source. -/
def defaultTasks : List RoutineTask :=
  [ { id := "hydrate", title := "Hydrate and stretch", time := "06:30",
      block := .Morning, details := "500ml water + 5 minute mobility routine",
      completed := false },
    { id := "plan", title := "Plan the day", time := "07:15",
      block := .Morning, details := "Review calendar and set top 3 priorities",
      completed := false },
    { id := "deep-work", title := "Deep work sprint", time := "09:00",
      block := .Midday, details := "90 minute focus block with notifications silenced",
      completed := false },
    { id := "movement", title := "Movement break", time := "12:30",
      block := .Midday, details := "20 minute walk and light stretching",
      completed := false },
    { id := "check-in", title := "Quick inbox sweep", time := "15:00",
      block := .Afternoon, details := "Respond to priority messages only",
      completed := false },
    { id := "wrap-up", title := "Daily review", time := "17:30",
      block := .Afternoon, details := "Log progress and queue tasks for tomorrow",
      completed := false },
    { id := "unwind", title := "Unwind routine", time := "20:30",
      block := .Evening, details := "Digital sunset, 30 minutes reading",
      completed := false } ]

/-- `createFallbackState` of the source: a fresh copy of the default catalog
(the element-wise spread `{ ...task }`) with `hydrated := false`. -/
def createFallbackState : RoutineState :=
  { tasks := defaultTasks.map fun task =>
      { id := task.id, title := task.title, time := task.time,
        block := task.block, details := task.details, completed := task.completed },
    hydrated := false }

/-- The construction of `storedById` inside `mergeTaskState`: keep the stored
items that are non-null objects containing an `"id"` key (the
`item && typeof item === "object" && "id" in item` test — arrays have no
`"id"` property, so only objects pass), keyed by `String(item.id)`,
later entries overwriting earlier ones (JS `Map` semantics, via
`lookupLast`). -/
def storedEntries (items : List JValue) : List (String × JValue) :=
  items.filterMap fun item =>
    match item with
    | .obj fields =>
      match lookupLast fields "id" with
      | some idVal => some (jsToString idVal, JValue.obj fields)
      | none => none
    | _ => none

/-- `mergeTaskState` of the source: if the stored value is not an array,
return `defaultTasks`; otherwise map over the canonical catalog and, for each
task with a stored candidate of the same id, copy
`Boolean(candidate.completed)` onto a copy of the canonical task. -/
def mergeTaskState (storedTasks : JValue) : List RoutineTask :=
  match storedTasks with
  | .arr items =>
    let storedById := storedEntries items
    defaultTasks.map fun task =>
      match lookupLast storedById task.id with
      | none => task
      | some candidate =>
        { task with completed := truthyOpt (getFieldOf candidate "completed") }
  | _ => defaultTasks

/-- `loadRoutineState` of the source.  `hasWindow` stands for
`typeof window !== "undefined"`; `stored` is the result of
`localStorage.getItem` + `JSON.parse` (`none` = item absent or empty string,
so falsy; `Except.error` = `JSON.parse` threw, caught by the `try`; `.ok v` =
the parsed value).  A parsed array is merged directly with
`hydrated := false`; a parsed object whose `tasks` field is an array is
merged with `hydrated := Boolean(parsed.hydrated)`; anything else falls back
to the default state. -/
def loadRoutineState (hasWindow : Bool) (stored : Option (Except Unit JValue)) :
    RoutineState :=
  if hasWindow = false then createFallbackState
  else
    match stored with
    | none => createFallbackState
    | some (.error _) => createFallbackState
    | some (.ok parsed) =>
      match parsed with
      | .arr items => { tasks := mergeTaskState (.arr items), hydrated := false }
      | .obj fields =>
        match lookupLast fields "tasks" with
        | some (.arr storedTasks) =>
          { tasks := mergeTaskState (.arr storedTasks),
            hydrated := truthyOpt (lookupLast fields "hydrated") }
        | _ => createFallbackState
      | _ => createFallbackState

/-- `toggleTask` of the source (the pure state update inside `setTasks`):
map over the tasks, inverting `completed` on the task whose id matches. -/
def toggleTask (tasks : List RoutineTask) (id : String) : List RoutineTask :=
  tasks.map fun task =>
    if task.id = id then { task with completed := !task.completed } else task

/-- Split a character list at a separator character, in the manner of
`String.prototype.split` with a single-character separator. -/
def splitOnChar (sep : Char) : List Char → List Char → List (List Char)
  | [], acc => [acc.reverse]
  | c :: rest, acc =>
    if c = sep then acc.reverse :: splitOnChar sep rest []
    else splitOnChar sep rest (c :: acc)

/-- `Number(s)` for the strings appearing in time fields: a nonempty
all-digit string denotes its decimal value; the empty string denotes `0`
(as in JS).  Other strings (which would be `NaN` in JS, a value with no
`Nat` counterpart; the catalog's time fields are all well-formed `"HH:MM"`)
also map to `0`. -/
def jsNumberOfChars (cs : List Char) : Nat :=
  if cs.all (·.isDigit) then cs.foldl (fun n c => 10 * n + (c.toNat - 48)) 0
  else 0

/-- `parseMinutes` of the source: split the time string on `":"`, convert the
pieces with `Number`, and return `hours * 60 + minutes` (the destructuring
`[hours, minutes]` takes the first two pieces). -/
def parseMinutes (time : String) : Nat :=
  let parts := (splitOnChar ':' time.toList []).map jsNumberOfChars
  parts.getD 0 0 * 60 + parts.getD 1 0

/-- `upcoming` of the source: copy the task list, keep the incomplete tasks,
sort ascending by `parseMinutes` (JS `Array.prototype.sort` with the
comparator `parseMinutes(a.time) - parseMinutes(b.time)` is a stable
ascending sort, modelled by the stable `List.mergeSort`), and take the first
three. -/
def upcoming (tasks : List RoutineTask) : List RoutineTask :=
  ((tasks.filter fun task => !task.completed).mergeSort
      fun a b => parseMinutes a.time ≤ parseMinutes b.time).take 3

/-- The `trend` expression of the source:
`completionRate >= 80 ? "On track" : "Keep going"`. -/
def trend (rate : Nat) : String :=
  if rate ≥ 80 then "On track" else "Keep going"

/-- Round `a / b` to the nearest integer, ties to even (`b > 0`): the IEEE-754
default rounding applied to an exact quotient whose rounding unit has been
normalised to `1`. -/
def rne (a b : Nat) : Nat :=
  let d := a / b
  let r := a % b
  if 2 * r < b then d
  else if 2 * r > b then d + 1
  else d + d % 2

/-- Smallest `k` with `t * 2 ^ 52 ≤ c * 2 ^ k`, by doubling `acc = c * 2 ^ k`
(`fuel` bounds the search; 128 suffices for every value reachable here). -/
def findScaleAux (t52 : Nat) : Nat → Nat → Nat → Nat
  | 0, _, k => k
  | fuel + 1, acc, k =>
    if t52 ≤ acc then k else findScaleAux t52 fuel (2 * acc) (k + 1)

/-- The binary64 double nearest to `c / t` (for `1 ≤ c ≤ t`), as a pair
`(m, k)` denoting `m / 2 ^ k` with `2 ^ 52 ≤ m < 2 ^ 53`: scale `c` into the
53-bit window above `t` and round to nearest, ties to even, carrying into the
exponent if rounding overflows the significand. -/
def divDouble (c t : Nat) : Nat × Nat :=
  let k := findScaleAux (t * 4503599627370496) 128 c 0
  let m := rne (c * 2 ^ k) t
  if m = 9007199254740992 then (4503599627370496, k - 1) else (m, k)

/-- Smallest `s` with `n < bound * 2 ^ s`, by doubling (`fuel` bounds the
search; used with `bound = 2 ^ 53` to find how far an exact product exceeds
53 bits). -/
def findShiftAux (n : Nat) : Nat → Nat → Nat → Nat
  | 0, _, s => s
  | fuel + 1, bound, s =>
    if n < bound then s else findShiftAux n fuel (2 * bound) (s + 1)

/-- The binary64 product of the double `m / 2 ^ k` with the exactly
representable `100`, as a pair denoting `m' / 2 ^ k'`: the exact product is
rounded back to 53 significant bits, ties to even. -/
def mul100Double (m k : Nat) : Nat × Nat :=
  let n := m * 100
  if n < 9007199254740992 then (n, k)
  else
    let s := findShiftAux n 128 9007199254740992 0
    let m2 := rne n (2 ^ s)
    if m2 = 9007199254740992 then (4503599627370496, k - s - 1) else (m2, k - s)

/-- `Math.round` applied to the nonnegative double `m / 2 ^ k`: the nearest
integer with ties towards `+∞`, i.e. `⌊m / 2 ^ k + 1 / 2⌋` evaluated
exactly. -/
def jsRound (m k : Nat) : Nat :=
  (2 * m + 2 ^ k) / 2 ^ (k + 1)

/-- `Math.round((c / t) * 100)` as the source's binary64 arithmetic computes
it, for `0 ≤ c ≤ t`, `t ≠ 0`: the division and the multiplication each round
to the nearest double, then `Math.round` is exact on the result. -/
def jsPct (c t : Nat) : Nat :=
  if c = 0 then 0
  else
    let mk := divDouble c t
    let mk2 := mul100Double mk.1 mk.2
    jsRound mk2.1 mk2.2

/-- The completion-rate expression of the source:
`totalTasks === 0 ? 0 : Math.round((totalCompleted / totalTasks) * 100)`
with `totalCompleted` the number of completed tasks. -/
def completionRate (tasks : List RoutineTask) : Nat :=
  let totalCompleted := (tasks.filter fun task => task.completed).length
  let totalTasks := tasks.length
  if totalTasks = 0 then 0 else jsPct totalCompleted totalTasks

/-- Serialization of one task by the state writer,
`JSON.stringify({ tasks, hydrated })`: every field of the task record is
written out. -/
def taskToJson (task : RoutineTask) : JValue :=
  .obj [ ("id", .str task.id), ("title", .str task.title),
         ("time", .str task.time),
         ("block", .str (match task.block with
            | .Morning => "Morning" | .Midday => "Midday"
            | .Afternoon => "Afternoon" | .Evening => "Evening")),
         ("details", .str task.details), ("completed", .bool task.completed) ]

/-- The snapshot written by the state writer (`useEffect` in `Home`):
`JSON.stringify({ tasks, hydrated })`, seen after the `JSON.parse` of the
next load (stringify-then-parse is the identity on these values). -/
def serializeState (tasks : List RoutineTask) (hydrated : Bool) : JValue :=
  .obj [ ("tasks", .arr (tasks.map taskToJson)), ("hydrated", .bool hydrated) ]

/-- The catalog with an arbitrary assignment of completed flags: the shape of
every task list reachable in the live application. -/
def applyFlags (tasks : List RoutineTask) (flags : List Bool) : List RoutineTask :=
  List.zipWith (fun task c => { task with completed := c }) tasks flags

/-- The completion rate as the specification states it:
`round(100 * completed / total)` in exact arithmetic (ties round up), `0` on
the empty list.  Stated from the spec's words, for comparison with the
source-derived `completionRate`. -/
def claimedCompletionRate (tasks : List RoutineTask) : Nat :=
  let completed := (tasks.filter fun task => task.completed).length
  let total := tasks.length
  if total = 0 then 0 else (200 * completed + total) / (2 * total)

example : parseMinutes "06:30" = 390 := by decide
example : parseMinutes "20:30" = 1230 := by decide
example : jsPct 1 7 = 14 := by decide
example : jsPct 7 7 = 100 := by decide
example : jsPct 23 40 = 57 := by decide
example : (200 * 23 + 40) / (2 * 40) = 58 := by decide

/-! ## Helper lemmas -/

theorem createFallbackState_eq : createFallbackState = { tasks := defaultTasks, hydrated := false } := by
  have h : (fun task : RoutineTask =>
      { id := task.id, title := task.title, time := task.time, block := task.block,
        details := task.details, completed := task.completed : RoutineTask }) = fun t => t := rfl
  simp only [createFallbackState, h, List.map_id']

theorem mergeTaskState_map_id (v : JValue) :
    (mergeTaskState v).map RoutineTask.id = defaultTasks.map RoutineTask.id := by
  cases v with
  | arr items =>
    simp only [mergeTaskState, List.map_map]
    refine List.map_congr_left fun t _ => ?_
    cases h : lookupLast (storedEntries items) t.id <;> simp [h]
  | null => rfl
  | bool b => rfl
  | num n => rfl
  | str s => rfl
  | obj fields => rfl

theorem loadRoutineState_map_id (hasWindow : Bool) (stored : Option (Except Unit JValue)) :
    (loadRoutineState hasWindow stored).tasks.map RoutineTask.id =
      defaultTasks.map RoutineTask.id := by
  cases hasWindow with
  | false => simp [loadRoutineState, createFallbackState_eq]
  | true =>
    match stored with
    | none => simp [loadRoutineState, createFallbackState_eq]
    | some (.error e) => simp [loadRoutineState, createFallbackState_eq]
    | some (.ok .null) => simp [loadRoutineState, createFallbackState_eq]
    | some (.ok (.bool b)) => simp [loadRoutineState, createFallbackState_eq]
    | some (.ok (.num n)) => simp [loadRoutineState, createFallbackState_eq]
    | some (.ok (.str s)) => simp [loadRoutineState, createFallbackState_eq]
    | some (.ok (.arr items)) =>
      simp only [loadRoutineState, Bool.true_eq_false, if_false]
      exact mergeTaskState_map_id _
    | some (.ok (.obj fields)) =>
      simp only [loadRoutineState, Bool.true_eq_false, if_false]
      match h : lookupLast fields "tasks" with
      | none => simp [h, createFallbackState_eq]
      | some (.arr storedTasks) => simp [h, mergeTaskState_map_id]
      | some .null => simp [h, createFallbackState_eq]
      | some (.bool b) => simp [h, createFallbackState_eq]
      | some (.num n) => simp [h, createFallbackState_eq]
      | some (.str s) => simp [h, createFallbackState_eq]
      | some (.obj f) => simp [h, createFallbackState_eq]

/-! ## Claims -/

/-- C10: for every stored value that parses as a bare JSON array,
`loadRoutineState` returns `hydrated = false` regardless of the array's
contents; the auxiliary flag is only recovered from the object-shaped
snapshot form. -/
theorem claim_C10_bare_array_aux_flag (items : List JValue) :
    (loadRoutineState true (some (.ok (.arr items)))).hydrated = false := rfl

/-- C9 counterexample: the claim fixes the label values as `"on track"` /
`"needs attention"`, but the code's below-threshold label is `"Keep going"`
(and its at-threshold label is `"On track"`), so at rate `0` the label is not
`"needs attention"`. -/
theorem claim_C9_counterexample :
    trend 0 = "Keep going" ∧ trend 0 ≠ "needs attention" ∧ trend 80 ≠ "on track" := by
  refine ⟨rfl, ?_, ?_⟩ <;> decide

/-- C9 (amended): the trend label takes exactly one of two fixed values:
`"On track"` when the rate is at least 80, and `"Keep going"` otherwise. -/
theorem claim_C9_trend_threshold (rate : Nat) :
    (trend rate = "On track" ∨ trend rate = "Keep going") ∧
      (trend rate = "On track" ↔ 80 ≤ rate) := by
  unfold trend
  by_cases h : 80 ≤ rate
  · simp [h]
  · have hne : ("Keep going" : String) ≠ "On track" := by decide
    simp [h, hne]

/-- C3: the id sequence of the live task list is always exactly the catalog's
id sequence: `loadRoutineState` produces the catalog's ids (in order) for
every environment and stored input, and `toggleTask` preserves the id
sequence of any task list, so no operation adds or removes tasks. -/
theorem claim_C3_id_set_invariant :
    (∀ (hasWindow : Bool) (stored : Option (Except Unit JValue)),
        (loadRoutineState hasWindow stored).tasks.map RoutineTask.id =
          defaultTasks.map RoutineTask.id) ∧
    (∀ (tasks : List RoutineTask) (id : String),
        (toggleTask tasks id).map RoutineTask.id = tasks.map RoutineTask.id) := by
  refine ⟨loadRoutineState_map_id, fun tasks id => ?_⟩
  simp only [toggleTask, List.map_map]
  refine List.map_congr_left fun t _ => ?_
  by_cases h : t.id = id <;> simp [h]

/-- C6: `toggleTask` maps the input pointwise, inverting `completed` exactly
on the tasks whose id matches and leaving every other task and every other
field unchanged; it is the identity when no task has the id, and applying it
twice with the same id restores the original list. -/
theorem claim_C6_toggle_frame (tasks : List RoutineTask) (id : String) :
    (∀ n : Nat, (toggleTask tasks id)[n]? =
        (tasks[n]?).map fun t =>
          if t.id = id then { t with completed := !t.completed } else t) ∧
    ((∀ t ∈ tasks, t.id ≠ id) → toggleTask tasks id = tasks) ∧
    toggleTask (toggleTask tasks id) id = tasks := by
  refine ⟨fun n => ?_, fun h => ?_, ?_⟩
  · simp [toggleTask]
  · have : tasks.map (fun task =>
        if task.id = id then { task with completed := !task.completed } else task) =
        tasks.map fun t => t := List.map_congr_left fun t ht => by simp [h t ht]
    simpa [toggleTask, List.map_id'] using this
  · simp only [toggleTask, List.map_map]
    have : tasks.map ((fun task =>
        if task.id = id then { task with completed := !task.completed } else task) ∘
          fun task =>
        if task.id = id then { task with completed := !task.completed } else task) =
        tasks.map fun t => t := by
      refine List.map_congr_left fun t _ => ?_
      obtain ⟨i, ti, tm, bl, de, co⟩ := t
      by_cases h : i = id <;> simp [Function.comp, h]
    simpa [List.map_id'] using this

/-- C6 witness: toggling `"plan"` twice on the catalog restores it, and
toggling an id absent from the catalog is the identity. -/
theorem claim_C6_toggle_frame_witness :
    toggleTask (toggleTask defaultTasks "plan") "plan" = defaultTasks ∧
      toggleTask defaultTasks "absent" = defaultTasks :=
  ⟨(claim_C6_toggle_frame defaultTasks "plan").2.2,
    (claim_C6_toggle_frame defaultTasks "absent").2.1 (by decide)⟩

/-- C2: whenever the environment has no window, or the stored item is absent,
or `JSON.parse` throws, or the parse result is `null`, a number, or an object
whose `tasks` field is missing or not an array, `loadRoutineState` returns
the full default catalog with `hydrated = false` (and, being a total
function, it does not throw); moreover every catalog task is incomplete. -/
theorem claim_C2_malformed_fallback :
    (∀ (hasWindow : Bool) (stored : Option (Except Unit JValue)),
      (hasWindow = false ∨ stored = none ∨ stored = some (.error ()) ∨
        stored = some (.ok .null) ∨ (∃ n, stored = some (.ok (.num n))) ∨
        (∃ fields, stored = some (.ok (.obj fields)) ∧
          ∀ v, lookupLast fields "tasks" = some v → ∀ items, v ≠ .arr items)) →
      loadRoutineState hasWindow stored = { tasks := defaultTasks, hydrated := false }) ∧
    ∀ t ∈ defaultTasks, t.completed = false := by
  have hfb : createFallbackState = { tasks := defaultTasks, hydrated := false } :=
    createFallbackState_eq
  refine ⟨fun hasWindow stored h => ?_, by decide⟩
  cases hasWindow with
  | false => simp [loadRoutineState, hfb]
  | true =>
    rcases h with h | h | h | h | ⟨n, h⟩ | ⟨fields, h, hf⟩
    · cases h
    · subst h; simp [loadRoutineState, hfb]
    · subst h; simp [loadRoutineState, hfb]
    · subst h; simp [loadRoutineState, hfb]
    · subst h; simp [loadRoutineState, hfb]
    · subst h
      simp only [loadRoutineState, Bool.true_eq_false, if_false]
      match hlk : lookupLast fields "tasks" with
      | none => simp [hfb]
      | some .null => simp [hfb]
      | some (.bool b) => simp [hfb]
      | some (.num m) => simp [hfb]
      | some (.str s) => simp [hfb]
      | some (.obj f) => simp [hfb]
      | some (.arr items) => exact absurd rfl (hf _ hlk items)

/-- C2 witness: a stored snapshot that parses to `null` yields the default
state. -/
theorem claim_C2_malformed_fallback_witness :
    loadRoutineState true (some (.ok .null)) = { tasks := defaultTasks, hydrated := false } :=
  claim_C2_malformed_fallback.1 true (some (.ok .null)) (by simp)

theorem lookup_eq_find?_snd {β : Type} (l : List (String × β)) (k : String) :
    l.lookup k = (l.find? fun e => e.1 == k).map Prod.snd := by
  induction l with
  | nil => rfl
  | cons p tl ih =>
    obtain ⟨a, b⟩ := p
    by_cases h : k = a
    · have h1 : (k == a) = true := by simp [h]
      have h2 : (a == k) = true := by simp [h]
      simp [List.lookup, List.find?, h1, h2]
    · have h1 : (k == a) = false := by simp [h]
      have h2 : (a == k) = false := by simp [Ne.symm h]
      simp [List.lookup, List.find?, h1, h2, ih]

theorem lookup_eq_none_of_not_mem {β : Type} (l : List (String × β)) (k : String)
    (h : k ∉ l.map Prod.fst) : l.lookup k = none := by
  rw [lookup_eq_find?_snd]
  have : l.find? (fun e => e.1 == k) = none := by
    rw [List.find?_eq_none]
    intro e he
    simp only [beq_iff_eq]
    exact fun hk => h (hk ▸ List.mem_map_of_mem Prod.fst he)
  simp [this]

theorem lookupLast_eq_lookup (l : List (String × JValue)) (k : String)
    (hnd : (l.map Prod.fst).Nodup) : lookupLast l k = l.lookup k := by
  induction l with
  | nil => rfl
  | cons p tl ih =>
    obtain ⟨a, v⟩ := p
    simp only [List.map_cons, List.nodup_cons] at hnd
    obtain ⟨ha, htl⟩ := hnd
    have ihtl := ih htl
    by_cases h : k = a
    · subst h
      have hnone : tl.lookup k = none := lookup_eq_none_of_not_mem tl k ha
      simp [lookupLast, List.lookup, ihtl, hnone]
    · have h1 : (k == a) = false := by simp [h]
      simp only [lookupLast, ihtl]
      cases hlk : tl.lookup k with
      | some r => simp [List.lookup, h, h1, hlk]
      | none => simp [List.lookup, h, h1, hlk, Ne.symm h]

theorem lookup_map_keyed {α γ : Type} (l : List α) (key : α → String) (g : α → γ)
    (k : String) :
    List.lookup k (l.map fun a => (key a, g a)) =
      (l.find? fun a => key a == k).map g := by
  induction l with
  | nil => rfl
  | cons a tl ih =>
    by_cases h : k = key a
    · have h1 : (k == key a) = true := by simp [h]
      have h2 : (key a == k) = true := by simp [h]
      simp [List.lookup, List.find?, h1, h2]
    · have h1 : (k == key a) = false := by simp [h]
      have h2 : (key a == k) = false := by simp [Ne.symm h]
      simp [List.lookup, List.find?, h1, h2, ih]

theorem storedEntries_map {α : Type} (l : List α) (key : α → String)
    (flds : α → List (String × JValue))
    (hid : ∀ a ∈ l, lookupLast (flds a) "id" = some (.str (key a))) :
    storedEntries (l.map fun a => .obj (flds a)) =
      l.map fun a => (key a, JValue.obj (flds a)) := by
  induction l with
  | nil => rfl
  | cons a tl ih =>
    simp only [List.map_cons, storedEntries, List.filterMap_cons]
    rw [hid a (List.mem_cons_self a tl)]
    simpa [storedEntries, jsToString] using ih fun x hx => hid x (List.mem_cons_of_mem a hx)

theorem mergeTaskState_keyed {α : Type} (l : List α) (key : α → String)
    (flds : α → List (String × JValue))
    (hid : ∀ a ∈ l, lookupLast (flds a) "id" = some (.str (key a)))
    (hnd : (l.map key).Nodup) :
    mergeTaskState (.arr (l.map fun a => .obj (flds a))) =
      defaultTasks.map fun d =>
        match l.find? fun a => key a == d.id with
        | none => d
        | some a => { d with completed := truthyOpt (lookupLast (flds a) "completed") } := by
  simp only [mergeTaskState, storedEntries_map l key flds hid]
  refine List.map_congr_left fun d _ => ?_
  have hkeys : ((l.map fun a => (key a, JValue.obj (flds a))).map Prod.fst).Nodup := by
    simpa [List.map_map, Function.comp] using hnd
  rw [lookupLast_eq_lookup _ _ hkeys, lookup_map_keyed l key (fun a => JValue.obj (flds a)) d.id]
  cases hf : l.find? fun a => key a == d.id with
  | none => simp
  | some a => simp [getFieldOf]

/-- C1: loading a stored snapshot whose task entries are id/completed pairs
(with pairwise-distinct ids) yields exactly the canonical catalog's tasks in
the catalog's order, with each task's `completed` flag copied from the stored
entry of the same id and `false` for tasks with no matching entry; entries
whose id is not in the catalog are never consulted (the result depends only
on the lookups at the catalog's own ids) and the auxiliary flag is `false`. -/
theorem claim_C1_reconciliation (entries : List (String × Bool))
    (hnd : entries.Pairwise fun a b => a.1 ≠ b.1) :
    loadRoutineState true (some (.ok (.arr (entries.map fun e =>
        .obj [("id", .str e.1), ("completed", .bool e.2)])))) =
      { tasks := defaultTasks.map fun d =>
          { d with completed := (entries.lookup d.id).getD false },
        hydrated := false } := by
  have hall : ∀ x ∈ defaultTasks, x.completed = false := by decide
  have hid : ∀ e ∈ entries,
      lookupLast [("id", JValue.str e.1), ("completed", JValue.bool e.2)] "id" =
        some (.str e.1) := fun e _ => rfl
  have hkey : (entries.map Prod.fst).Nodup :=
    List.Pairwise.map Prod.fst (fun a b hab => hab) hnd
  simp only [loadRoutineState, Bool.true_eq_false, if_false]
  rw [mergeTaskState_keyed entries Prod.fst
    (fun e => [("id", JValue.str e.1), ("completed", JValue.bool e.2)]) hid hkey]
  refine congrArg (fun ts => RoutineState.mk ts false) ?_
  refine List.map_congr_left fun d hd => ?_
  rw [lookup_eq_find?_snd]
  cases hf : entries.find? fun e => e.1 == d.id with
  | none =>
    have hc : d.completed = false := hall d hd
    obtain ⟨i, ti, tm, bl, de, co⟩ := d
    cases hc
    simp [hf]
  | some e => simp [hf, truthyOpt, truthy, lookupLast]

/-- C1 witness: a snapshot holding `plan: completed` plus an entry with an
unknown id `ghost` loads to the catalog with only `plan` completed. -/
theorem claim_C1_reconciliation_witness :
    loadRoutineState true (some (.ok (.arr ([(("plan" : String), true), ("ghost", true)].map
        fun e => .obj [("id", JValue.str e.1), ("completed", JValue.bool e.2)])))) =
      { tasks := defaultTasks.map fun d =>
          { d with completed :=
              (([(("plan" : String), true), ("ghost", true)].lookup d.id).getD false) },
        hydrated := false } :=
  claim_C1_reconciliation [("plan", true), ("ghost", true)] (by simp [List.pairwise_cons])

/-- C4 counterexample: a stored fragment for `hydrate` whose `completed`
field is the (non-boolean) number `1` does not merge to `completed = false`
as the claim requires; the code's `Boolean(candidate.completed)` coerces it
to `true`. -/
theorem claim_C4_counterexample :
    (mergeTaskState (.arr [.obj [("id", .str "hydrate"), ("completed", .num 1)]])).head?.map
        (fun t => t.completed) = some true ∧ some true ≠ some false := by
  refine ⟨by decide, by decide⟩

/-- C4 (amended): for a stored fragment (an object with an `id` field and any
further fields) matching a canonical task, the merged `completed` flag is the
JavaScript truthiness of the fragment's `completed` field: a boolean is used
as-is, an absent field or `null` or `0` or `""` gives `false`, and any other
value (nonzero number, nonempty string, array, object) gives `true`
(`truthyOpt` applied to the field lookup is exactly `Boolean(x)`, with the
absent field's `undefined` as `none`). -/
theorem claim_C4_completed_coercion (entries : List (String × List (String × JValue)))
    (hnd : entries.Pairwise fun a b => a.1 ≠ b.1)
    (hid : ∀ e ∈ entries, lookupLast e.2 "id" = some (.str e.1)) :
    mergeTaskState (.arr (entries.map fun e => .obj e.2)) =
      defaultTasks.map fun d =>
        { d with completed := match entries.lookup d.id with
            | some fds => truthyOpt (lookupLast fds "completed")
            | none => false } := by
  have hall : ∀ x ∈ defaultTasks, x.completed = false := by decide
  have hkey : (entries.map Prod.fst).Nodup :=
    List.Pairwise.map Prod.fst (fun a b hab => hab) hnd
  rw [mergeTaskState_keyed entries Prod.fst Prod.snd hid hkey]
  refine List.map_congr_left fun d hd => ?_
  rw [lookup_eq_find?_snd]
  cases hf : entries.find? fun e => e.1 == d.id with
  | none =>
    have hc : d.completed = false := hall d hd
    obtain ⟨i, ti, tm, bl, de, co⟩ := d
    cases hc
    simp [hf, truthyOpt]
  | some e => simp [hf, truthyOpt]

/-- C4 witness: concrete coercions — `completed: 1` becomes `true`,
`completed: true` stays `true`, an absent `completed` field becomes `false`,
and `completed: ""` becomes `false`. -/
theorem claim_C4_completed_coercion_witness :
    mergeTaskState (.arr ([(("hydrate" : String),
          [("id", JValue.str "hydrate"), ("completed", JValue.num 1)]),
        ("plan", [("id", JValue.str "plan"), ("completed", JValue.bool true)]),
        ("deep-work", [("id", JValue.str "deep-work")]),
        ("movement", [("id", JValue.str "movement"),
          ("completed", JValue.str "")])].map fun e => .obj e.2)) =
      defaultTasks.map fun d =>
        { d with completed := match [(("hydrate" : String),
              [("id", JValue.str "hydrate"), ("completed", JValue.num 1)]),
            ("plan", [("id", JValue.str "plan"), ("completed", JValue.bool true)]),
            ("deep-work", [("id", JValue.str "deep-work")]),
            ("movement", [("id", JValue.str "movement"),
              ("completed", JValue.str "")])].lookup d.id with
            | some fds => truthyOpt (lookupLast fds "completed")
            | none => false } :=
  claim_C4_completed_coercion _ (by simp [List.pairwise_cons])
    (by intro e he; fin_cases he <;> rfl)

/-- C5: serializing a valid in-memory state as the writer does
(`{ tasks, hydrated }`, all task fields included) and loading the result
reproduces the same `completed` flag on every task and the same auxiliary
flag, for every flag assignment over the catalog. -/
theorem claim_C5_save_load_roundtrip (flags : List Bool) (aux : Bool)
    (hlen : flags.length = defaultTasks.length) :
    loadRoutineState true (some (.ok (serializeState (applyFlags defaultTasks flags) aux))) =
      { tasks := applyFlags defaultTasks flags, hydrated := aux } := by
  cases flags with
  | nil => simp [defaultTasks] at hlen
  | cons b1 f1 =>
  cases f1 with
  | nil => simp [defaultTasks] at hlen
  | cons b2 f2 =>
  cases f2 with
  | nil => simp [defaultTasks] at hlen
  | cons b3 f3 =>
  cases f3 with
  | nil => simp [defaultTasks] at hlen
  | cons b4 f4 =>
  cases f4 with
  | nil => simp [defaultTasks] at hlen
  | cons b5 f5 =>
  cases f5 with
  | nil => simp [defaultTasks] at hlen
  | cons b6 f6 =>
  cases f6 with
  | nil => simp [defaultTasks] at hlen
  | cons b7 f7 =>
  cases f7 with
  | nil => rfl
  | cons b8 f8 => simp [defaultTasks] at hlen

/-- C5 witness: a concrete flag assignment round-trips. -/
theorem claim_C5_save_load_roundtrip_witness :
    loadRoutineState true (some (.ok (serializeState
        (applyFlags defaultTasks [true, false, true, false, false, false, true]) true))) =
      { tasks := applyFlags defaultTasks [true, false, true, false, false, false, true],
        hydrated := true } :=
  claim_C5_save_load_roundtrip [true, false, true, false, false, false, true] true (by decide)

/-- An incomplete task at `09:00`. -/
def exTaskNine : RoutineTask :=
  { id := "a", title := "A", time := "09:00", block := .Midday, details := "",
    completed := false }

/-- An incomplete task at `06:30`. -/
def exTaskSixThirty : RoutineTask :=
  { id := "b", title := "B", time := "06:30", block := .Morning, details := "",
    completed := false }

/-- A completed task at `07:15`. -/
def exTaskSevenFifteen : RoutineTask :=
  { id := "c", title := "C", time := "07:15", block := .Morning, details := "",
    completed := true }

unseal List.merge List.mergeSort in
/-- C7: for every task list, `upcoming` is the first three elements of a list
that is a permutation of the incomplete tasks, is sorted ascending by
`parseMinutes` of the time field, and preserves the relative input order of
tasks with equal times (its restriction to each time value equals the
input's restriction — the stability of the sort); in particular, for tasks
at 09:00 (incomplete), 06:30 (incomplete), 07:15 (completed) it returns the
06:30 task followed by the 09:00 task. -/
theorem claim_C7_upcoming :
    (∀ tasks : List RoutineTask,
      ∃ s : List RoutineTask,
        upcoming tasks = s.take 3 ∧
        s.Perm (tasks.filter fun t => !t.completed) ∧
        s.Pairwise (fun a b => parseMinutes a.time ≤ parseMinutes b.time) ∧
        ∀ m : Nat, s.filter (fun t => parseMinutes t.time == m) =
          (tasks.filter fun t => !t.completed).filter fun t =>
            parseMinutes t.time == m) ∧
    upcoming [exTaskNine, exTaskSixThirty, exTaskSevenFifteen] =
      [exTaskSixThirty, exTaskNine] := by
  have htrans : ∀ a b c : RoutineTask,
      (parseMinutes a.time ≤ parseMinutes b.time : Bool) = true →
      (parseMinutes b.time ≤ parseMinutes c.time : Bool) = true →
      (parseMinutes a.time ≤ parseMinutes c.time : Bool) = true := by
    intro a b c h1 h2
    simp only [decide_eq_true_eq] at h1 h2 ⊢
    omega
  have htotal : ∀ a b : RoutineTask,
      ((parseMinutes a.time ≤ parseMinutes b.time : Bool) ||
        (parseMinutes b.time ≤ parseMinutes a.time : Bool)) = true := by
    intro a b
    simp only [Bool.or_eq_true, decide_eq_true_eq]
    omega
  constructor
  · intro tasks
    refine ⟨_, rfl, ?_, ?_, ?_⟩
    · exact List.mergeSort_perm _ _
    · have := List.sorted_mergeSort htrans htotal (tasks.filter fun t => !t.completed)
      exact this.imp fun h => by simpa using h
    · intro m
      set inc := tasks.filter fun t => !t.completed with hincdef
      set p : RoutineTask → Bool := fun t => parseMinutes t.time == m with hpdef
      have hall : ∀ x ∈ inc.filter p, p x = true := fun x hx => List.of_mem_filter hx
      have hpair : (inc.filter p).Pairwise
          (fun a b => (parseMinutes a.time ≤ parseMinutes b.time : Bool) = true) := by
        refine List.pairwise_of_forall_mem_list fun a ha b hb => ?_
        have hma : parseMinutes a.time = m := by
          have := hall a ha; simpa [hpdef] using this
        have hmb : parseMinutes b.time = m := by
          have := hall b hb; simpa [hpdef] using this
        simp [hma, hmb]
      have hsubM : (inc.filter p).Sublist
          (inc.mergeSort fun a b => parseMinutes a.time ≤ parseMinutes b.time) :=
        List.sublist_mergeSort htrans htotal hpair (List.filter_sublist inc)
      have h0 : (inc.filter p).filter p = inc.filter p := List.filter_eq_self.mpr hall
      have h1 : (inc.filter p).Sublist
          (((inc.mergeSort fun a b => parseMinutes a.time ≤ parseMinutes b.time)).filter p) := by
        rw [← h0]
        exact List.Sublist.filter p hsubM
      have h2 : (((inc.mergeSort fun a b =>
            parseMinutes a.time ≤ parseMinutes b.time)).filter p).Perm (inc.filter p) :=
        List.Perm.filter p (List.mergeSort_perm inc _)
      exact (h1.eq_of_length h2.length_eq.symm).symm
  · rfl

/-- A completed task, used to build larger example lists. -/
def doneTask : RoutineTask :=
  { id := "d", title := "D", time := "09:00", block := .Midday, details := "",
    completed := true }

/-- An incomplete task, used to build larger example lists. -/
def openTask : RoutineTask :=
  { id := "o", title := "O", time := "10:00", block := .Midday, details := "",
    completed := false }

/-- A 40-task list with 23 completed tasks. -/
def fortyTasks : List RoutineTask :=
  List.replicate 23 doneTask ++ List.replicate 17 openTask

/-- C8 counterexample: on a 40-task list with 23 completed, the binary64
evaluation of `Math.round((23 / 40) * 100)` yields 57 (the double nearest to
`23 / 40` times `100` is just below `57.5`), while the claim's exact
`round(100 * 23 / 40) = round(57.5)` is 58, so the claimed equality fails
there. -/
theorem claim_C8_counterexample :
    completionRate fortyTasks = 57 ∧ claimedCompletionRate fortyTasks = 58 ∧
      completionRate fortyTasks ≠ claimedCompletionRate fortyTasks := by
  refine ⟨by decide, by decide, by decide⟩

/-- C8 (amended): for every task list of at most 39 tasks the completion
rate equals the exact `round(100 * completed / total)` (0 on the empty
list); for longer lists the code's binary64 arithmetic can differ from exact
rounding (first at 23 of 40).  The claim's boundary cases hold on the
catalog: all 7 completed gives 100, and 1 of 7 gives 14. -/
theorem claim_C8_completion_rate :
    (∀ tasks : List RoutineTask, tasks.length ≤ 39 →
        completionRate tasks = claimedCompletionRate tasks) ∧
    completionRate [] = 0 ∧
    completionRate (applyFlags defaultTasks (List.replicate 7 true)) = 100 ∧
    completionRate (applyFlags defaultTasks (true :: List.replicate 6 false)) = 14 := by
  have hkey : ∀ t < 40, ∀ c < t + 1,
      t = 0 ∨ jsPct c t = (200 * c + t) / (2 * t) := by decide
  refine ⟨fun tasks hlen => ?_, by decide, by decide, by decide⟩
  have hc : (tasks.filter fun tk => tk.completed).length ≤ tasks.length :=
    List.length_filter_le _ _
  simp only [completionRate, claimedCompletionRate]
  by_cases h0 : tasks.length = 0
  · simp [h0]
  · rcases hkey tasks.length (by omega) (tasks.filter fun tk => tk.completed).length
      (by omega) with h | h
    · exact absurd h h0
    · simp [h0, h]

/-- C8 witness: 1 completed of the catalog's 7 matches exact rounding, at the
value 14. -/
theorem claim_C8_completion_rate_witness :
    completionRate (applyFlags defaultTasks (true :: List.replicate 6 false)) =
        claimedCompletionRate (applyFlags defaultTasks (true :: List.replicate 6 false)) ∧
      claimedCompletionRate (applyFlags defaultTasks (true :: List.replicate 6 false)) = 14 :=
  ⟨claim_C8_completion_rate.1 _ (by decide), by decide⟩
